import Mathlib

/-!
Verification of the content-recommendation and proactive-delivery core of the
proactive-ai prototype (backend/app: `models.py`, `data_store.py`,
`recommendation.py`, `trigger.py`, `text_similarity.py`).

Modelling conventions (shallow embedding):
* Python floats are modelled as rationals `ℚ`; the program only compares,
  adds, multiplies and divides scores, so the rational semantics agrees with
  the float semantics up to rounding, and the spec explicitly scopes out
  bit-level float compatibility.
* Timestamp strings are modelled by `TimeStr`: `iso t` stands for a string
  that `datetime.fromisoformat` parses to the time `t` (measured in hours on
  a global time line), `junk s` stands for a string on which parsing raises
  `ValueError`.  ISO strings of the uniform format used by the program
  compare lexicographically in the same order as their timestamps, so
  `TimeStr.le` compares `iso` values by time; malformed strings are compared
  among themselves lexicographically and the order between the two classes
  is fixed arbitrarily (no property proved here depends on it).
* `datetime.now()` is passed explicitly as a `Clock`: `t` is the current
  time on the same hour-valued time line and `hour` is `datetime.now().hour`.
* Python `dict`s keyed by strings are association lists with unique keys,
  built only through `dictSet`, which mirrors `d[k] = v` (update in place,
  new keys appended), preserving insertion order like a Python dict.
* `uuid.uuid4()` and the `datetime.now().isoformat()` defaults of
  `record_feedback` are passed in as explicit arguments.
-/

namespace Proactive

/-- A Python string used as a timestamp: either parseable by
`datetime.fromisoformat` (with its parsed value, in hours) or malformed. -/
inductive TimeStr : Type
| iso (t : ℚ)
| junk (s : String)
deriving DecidableEq, Repr

/-- Sort key order on timestamp strings (Python compares the raw strings;
see the module comment for how this models that order). -/
def TimeStr.le : TimeStr → TimeStr → Bool
| .iso a, .iso b => a ≤ b
| .junk a, .junk b => a ≤ b
| .junk _, .iso _ => true
| .iso _, .junk _ => false

/-- The ambient wall clock: `t` is `datetime.now()` on the hour-valued time
line, `hour` is `datetime.now().hour`. -/
structure Clock : Type where
  t : ℚ
  hour : ℤ
deriving DecidableEq, Repr

/-- `models.Candidate` (dataclass). `created_at` is an ISO string in the
source, modelled as a `TimeStr`. -/
structure Candidate : Type where
  id : String
  title : String := ""
  summary : String := ""
  category : String
  keywords : List String
  source : String := ""
  engagement_score : ℚ := 0
  created_at : TimeStr := .junk ""
  content_type : String := "article"
  difficulty : String := "intermediate"
  priority : String := "medium"
deriving DecidableEq, Repr

/-- `Candidate.matches_interests`: `len(set(self.keywords) & set(interests))`. -/
def Candidate.matchesInterests (c : Candidate) (interests : List String) : ℕ :=
  ((c.keywords.dedup).filter (fun k => k ∈ interests)).length

/-- `models.User` (dataclass).  `paused_until` is `None` or falsy when
`none`; a truthy value is a `TimeStr` (the code applies `str(...)` and then
`datetime.fromisoformat`). -/
structure User : Type where
  id : String
  name : String := ""
  email : String := ""
  topics_of_interest : List String := []
  frequency : String := "sometimes"
  preferred_hour_start : ℤ := 9
  preferred_hour_end : ℤ := 18
  paused_until : Option TimeStr := none
  created_at : TimeStr := .junk ""
deriving DecidableEq, Repr

/-- `models.UserActivity` (dataclass). -/
structure UserActivity : Type where
  user_id : String
  activity_type : String
  timestamp : TimeStr := .junk ""
  keywords : List String := []
  query : String := ""
  pr_id : String := ""
deriving DecidableEq, Repr

/-- `models.UserContext` (dataclass). -/
structure UserContext : Type where
  user_id : String
  current_activity : String := "browsing"
  recent_topics : List String := []
  time_since_last_interaction : ℤ := 0
  receptivity_score : ℚ := 1/2
deriving DecidableEq, Repr

/-- The human-readable `description` strings of `models.Signal` modelled as
tags carrying the interpolated values. -/
inductive SignalDesc : Type
| matchesInterests (n : ℕ)
| readingHistory
| searchHistory
| similarUsers
| trending
| timing
deriving DecidableEq, Repr

/-- `models.Signal` (dataclass); the `type` field keeps the source's string. -/
structure Signal : Type where
  type : String
  description : SignalDesc
  weight : ℚ
deriving DecidableEq, Repr

/-- `models.ScoredCandidate` (dataclass). -/
structure ScoredCandidate : Type where
  candidate : Candidate
  score : ℚ
  signals : List Signal := []
deriving DecidableEq, Repr

/-- A stored feedback record, as written by `DataStore.record_feedback`
(a JSON dict; `created_at` may be missing → `none`). -/
structure FeedbackRecord : Type where
  id : String
  user_id : String
  candidate_id : String
  action : String
  conversation_turns : ℤ := 0
  created_at : Option TimeStr := none
deriving DecidableEq, Repr

/-- The `_data` dict of `data_store.DataStore`: candidates, users, activity
and feedback collections (candidate dicts are read back through
`_dict_to_candidate`, so they are modelled as `Candidate` values directly). -/
structure DataStore : Type where
  candidates : List Candidate := []
  users : List User := []
  user_activity : List UserActivity := []
  feedback : List FeedbackRecord := []
deriving DecidableEq, Repr

/-! ### Python `dict` helpers (string-keyed association lists) -/

/-- `d.get(k)` on a Python dict. -/
def dictGet {α : Type} : List (String × α) → String → Option α
| [], _ => none
| p :: ps, k => if p.1 = k then some p.2 else dictGet ps k

/-- `d.get(k, v₀)` on a Python dict. -/
def dictGetD {α : Type} (d : List (String × α)) (k : String) (v₀ : α) : α :=
  (dictGet d k).getD v₀

/-- `d[k] = v` on a Python dict: replace the binding in place, or append a
new one (Python dicts preserve insertion order). -/
def dictSet {α : Type} : List (String × α) → String → α → List (String × α)
| [], k, v => [(k, v)]
| p :: ps, k, v => if p.1 = k then (k, v) :: ps else p :: dictSet ps k v

/-! ### Max of a list (Python `max(...)` over a non-empty iterable) -/

/-- `max(...)` over a list of rationals (the source only evaluates it on
non-empty lists; the `[]` case is arbitrary). -/
def listMaxQ : List ℚ → ℚ
| [] => 0
| x :: xs => xs.foldl max x

/-- `max(...)` over a list of naturals. -/
def listMaxNat : List ℕ → ℕ
| [] => 0
| x :: xs => xs.foldl max x

/-! ### `trigger.py` — TriggerService -/

/-- `trigger.TriggerDecision`. -/
inductive TriggerDecision : Type
| trigger
| wait
| queue
| skip
deriving DecidableEq, Repr

/-- The human-readable `reason` strings of `TriggerResult`, modelled as tags
carrying the values the source interpolates into them. -/
inductive TriggerReason : Type
| userPaused
| outsidePreferredHours (hstart hend : ℤ)
| tooSoon (hoursSince minInterval : ℚ)
| scoreTooLow (score : ℚ)
| deepWork
| lowReceptivity (receptivity : ℚ)
| allConditionsMet
deriving DecidableEq, Repr

/-- `trigger.TriggerResult` (dataclass); `retry_after` is a duration in
hours. -/
structure TriggerResult : Type where
  decision : TriggerDecision
  reason : TriggerReason
  retry_after : Option ℚ := none
  priority : ℚ := 1/2
deriving DecidableEq, Repr

/-- `TriggerService.MIN_INTERVALS`. -/
def MIN_INTERVALS : List (String × ℚ) :=
  [("rarely", 72), ("sometimes", 24), ("often", 4)]

/-- `TriggerService._get_last_message_time`: filter the feedback log by user,
sort descending by the raw `created_at` string (missing keys sort as `""`),
and parse the most recent record's `created_at`; any
`ValueError`/`KeyError`/`TypeError` yields `None`. -/
def getLastMessageTime (store : DataStore) (user_id : String) : Option ℚ :=
  let user_feedback := store.feedback.filter (fun f => f.user_id = user_id)
  if user_feedback.isEmpty then none
  else
    let sorted := user_feedback.mergeSort (fun a b =>
      TimeStr.le (b.created_at.getD (TimeStr.junk "")) (a.created_at.getD (TimeStr.junk "")))
    match sorted with
    | [] => none
    | f :: _ =>
      match f.created_at with
      | some (TimeStr.iso t) => some t
      | _ => none

/-- `TriggerService._compute_priority`. -/
def computePriority (now : Clock) (recommendation : ScoredCandidate) : ℚ :=
  let base₀ := recommendation.score
  let candidate := recommendation.candidate
  let base₁ :=
    if candidate.priority = "high" then base₀ * (13/10)
    else if candidate.priority = "low" then base₀ * (8/10)
    else base₀
  let base₂ :=
    if 9 ≤ now.hour ∧ now.hour ≤ 17 ∧ candidate.category = "work" then base₁ * (12/10)
    else base₁
  min base₂ 1

/-- Whether step 1 of `should_trigger` fires: `paused_until` is truthy,
parses, and lies in the future. -/
def pauseActive (now : Clock) (user : User) : Bool :=
  match user.paused_until with
  | some (TimeStr.iso pause_end) => now.t < pause_end
  | _ => false

/-- Steps 5–7 of `TriggerService.should_trigger`: content urgency and user
context. -/
def shouldTriggerFromContext (now : Clock) (recommendation : ScoredCandidate)
    (context : Option UserContext) : TriggerResult :=
  let priority := computePriority now recommendation
  match context with
  | some ctx =>
    if ctx.current_activity = "deep_work" then
      { decision := .queue, reason := .deepWork, retry_after := some 1, priority := priority }
    else if ctx.receptivity_score < 3/10 then
      { decision := .wait, reason := .lowReceptivity ctx.receptivity_score,
        retry_after := some (1/2), priority := priority }
    else
      { decision := .trigger, reason := .allConditionsMet, priority := priority }
  | none =>
    { decision := .trigger, reason := .allConditionsMet, priority := priority }

/-- Step 4 of `TriggerService.should_trigger`: recommendation quality
threshold. -/
def shouldTriggerFromQuality (now : Clock) (recommendation : ScoredCandidate)
    (context : Option UserContext) : TriggerResult :=
  if recommendation.score < 1/2 then
    { decision := .skip, reason := .scoreTooLow recommendation.score,
      priority := recommendation.score }
  else shouldTriggerFromContext now recommendation context

/-- Step 3 of `TriggerService.should_trigger`: frequency constraint
(`hours_since_last` is `(now − last).total_seconds()/3600`, i.e. the
difference on the hour-valued time line). -/
def shouldTriggerFromFrequency (store : DataStore) (now : Clock) (user : User)
    (recommendation : ScoredCandidate) (context : Option UserContext) : TriggerResult :=
  let min_interval := dictGetD MIN_INTERVALS user.frequency 24
  match getLastMessageTime store user.id with
  | some last_message_time =>
    let hours_since_last := now.t - last_message_time
    if hours_since_last < min_interval then
      { decision := .wait, reason := .tooSoon hours_since_last min_interval,
        retry_after := some (min_interval - hours_since_last) }
    else shouldTriggerFromQuality now recommendation context
  | none => shouldTriggerFromQuality now recommendation context

/-- Step 2 of `TriggerService.should_trigger`: the preferred-hours window
check `user.preferred_hour_start <= current_hour < user.preferred_hour_end`
(note: no wraparound in the membership test; `% 24` appears only in the
retry computation). -/
def shouldTriggerFromWindow (store : DataStore) (now : Clock) (user : User)
    (recommendation : ScoredCandidate) (context : Option UserContext) : TriggerResult :=
  if ¬ (user.preferred_hour_start ≤ now.hour ∧ now.hour < user.preferred_hour_end) then
    { decision := .queue,
      reason := .outsidePreferredHours user.preferred_hour_start user.preferred_hour_end,
      retry_after := some (((user.preferred_hour_start - now.hour) % 24 : ℤ) : ℚ) }
  else shouldTriggerFromFrequency store now user recommendation context

/-- `TriggerService.should_trigger` (step 1 is the pause guard; a malformed
`paused_until` raises inside `fromisoformat` and the exception handler falls
through to step 2). -/
def shouldTrigger (store : DataStore) (now : Clock) (user : User)
    (recommendation : ScoredCandidate) (context : Option UserContext) : TriggerResult :=
  match user.paused_until with
  | some (TimeStr.iso pause_end) =>
    if now.t < pause_end then
      { decision := .wait, reason := .userPaused, retry_after := some (pause_end - now.t) }
    else shouldTriggerFromWindow store now user recommendation context
  | _ => shouldTriggerFromWindow store now user recommendation context

/-! ### `data_store.py` — DataStore operations -/

/-- `DataStore.get_all_candidates`. -/
def getAllCandidates (store : DataStore) : List Candidate :=
  store.candidates

/-- `DataStore.get_candidates_by_keywords`: candidates whose keyword set
meets the query set, sorted by engagement score descending (stable), capped
at `limit`. -/
def getCandidatesByKeywords (store : DataStore) (keywords : List String) (limit : ℕ) :
    List Candidate :=
  let candidates := store.candidates.filter (fun c => c.keywords.any (fun k => k ∈ keywords))
  (candidates.mergeSort (fun a b => b.engagement_score ≤ a.engagement_score)).take limit

/-- `DataStore.update_candidate_score` on the candidates list: add
`score_delta` to the first candidate with the given id (the loop breaks
after the first match). -/
def updateCandidateScore : List Candidate → String → ℚ → List Candidate
| [], _, _ => []
| c :: cs, candidate_id, score_delta =>
  if c.id = candidate_id then
    { c with engagement_score := c.engagement_score + score_delta } :: cs
  else c :: updateCandidateScore cs candidate_id score_delta

/-- `DataStore.get_user`: first user dict with the given id. -/
def getUser (store : DataStore) (user_id : String) : Option User :=
  store.users.find? (fun u => u.id = user_id)

/-- `DataStore.get_user_activity`: the user's activity, sorted by raw
timestamp string descending (stable), capped at `limit`. -/
def getUserActivity (store : DataStore) (user_id : String) (limit : ℕ) : List UserActivity :=
  let activities := store.user_activity.filter (fun a => a.user_id = user_id)
  (activities.mergeSort (fun a b => TimeStr.le b.timestamp a.timestamp)).take limit

/-- Python `str.split()` with no argument: split on whitespace runs,
dropping empty pieces. -/
def pySplitWhitespace (s : String) : List String :=
  (s.split Char.isWhitespace).filter (fun w => w ≠ "")

/-- `DataStore.get_user_keywords`: keywords of the 20 most recent
activities plus lowercase tokens of their queries, deduplicated
(`list(set(...))`; Python's set iteration order is unspecified and nothing
downstream depends on it — only membership is used). -/
def getUserKeywords (store : DataStore) (user_id : String) : List String :=
  let activities := getUserActivity store user_id 20
  let keywords := activities.foldl (fun acc activity =>
    acc ++ activity.keywords ++
      (if activity.query ≠ "" then pySplitWhitespace activity.query.toLower else [])) []
  keywords.dedup

/-- `DataStore.get_shown_candidates`. -/
def getShownCandidates (store : DataStore) (user_id : String) : List String :=
  (store.feedback.filter (fun f => f.user_id = user_id)).map (fun f => f.candidate_id)

/-- The `score_deltas` table of `DataStore.record_feedback`. -/
def SCORE_DELTAS : List (String × ℚ) :=
  [("started", 1), ("replied", 1/2), ("dismissed", -(3/10)), ("ignored", -(1/10)),
   ("dont_show_like_this", -1)]

/-- The feedback dict written by `DataStore.record_feedback`; `fresh_id`
stands for `str(uuid.uuid4())` and `now_iso` for
`datetime.now().isoformat()` (the `or` defaults fire on falsy values, i.e.
an empty id string / an absent or empty `created_at`). -/
def mkFeedbackRecord (fresh_id : String) (now_iso : TimeStr) (feedback : FeedbackRecord) :
    FeedbackRecord :=
  { id := if feedback.id = "" then fresh_id else feedback.id,
    user_id := feedback.user_id,
    candidate_id := feedback.candidate_id,
    action := feedback.action,
    conversation_turns := feedback.conversation_turns,
    created_at := some (match feedback.created_at with
      | none => now_iso
      | some (TimeStr.junk "") => now_iso
      | some ts => ts) }

/-- `DataStore.record_feedback`: append the record, then apply the
action→delta table to the referenced candidate's engagement score
(`score_deltas.get(action, 0)`; no update when the delta is 0, i.e. the
action is unrecognized). -/
def recordFeedback (fresh_id : String) (now_iso : TimeStr) (store : DataStore)
    (feedback : FeedbackRecord) : DataStore :=
  let record := mkFeedbackRecord fresh_id now_iso feedback
  let store₁ := { store with feedback := store.feedback ++ [record] }
  let delta := dictGetD SCORE_DELTAS feedback.action 0
  if delta ≠ 0 then
    { store₁ with
      candidates := updateCandidateScore store₁.candidates feedback.candidate_id delta }
  else store₁

/-- The `positive_actions` set of the collaborative-filtering queries. -/
def POSITIVE_ACTIONS : List String := ["started", "replied"]

/-- `DataStore.find_similar_users`: Jaccard similarity of interest sets
against every other user, keeping strictly positive similarities, sorted
descending (stable), capped at `limit`. -/
def findSimilarUsers (store : DataStore) (user_id : String) (limit : ℕ) :
    List (String × ℚ) :=
  match getUser store user_id with
  | none => []
  | some target_user =>
    if target_user.topics_of_interest.dedup.isEmpty then []
    else
      let target_interests := target_user.topics_of_interest
      let similarities := store.users.filterMap (fun u =>
        if u.id = user_id then none
        else if u.topics_of_interest.dedup.isEmpty then none
        else
          let intersection :=
            (target_interests.dedup.filter (fun t => t ∈ u.topics_of_interest)).length
          let union := ((target_interests ++ u.topics_of_interest).dedup).length
          if 0 < union then
            let similarity := (intersection : ℚ) / (union : ℚ)
            if 0 < similarity then some (u.id, similarity) else none
          else none)
      (similarities.mergeSort (fun a b => b.2 ≤ a.2)).take limit

/-- `DataStore.get_candidates_engaged_by_similar_users`: accumulate
`similarity × action_weight` over the positive feedback of similar users on
candidates the target has not seen, sorted by accumulated score descending
(stable over dict insertion order), capped at `limit`. -/
def getCandidatesEngagedBySimilarUsers (store : DataStore) (user_id : String) (limit : ℕ) :
    List (String × ℚ) :=
  let similar_users := findSimilarUsers store user_id 10
  if similar_users.isEmpty then []
  else
    let seen_by_target := getShownCandidates store user_id
    let candidate_scores := similar_users.foldl (fun acc p =>
      let user_feedback := store.feedback.filter (fun f =>
        f.user_id = p.1 ∧ f.action ∈ POSITIVE_ACTIONS)
      user_feedback.foldl (fun acc f =>
        if f.candidate_id ∈ seen_by_target then acc
        else
          let action_weight : ℚ := if f.action = "started" then 1 else 1/2
          let score := p.2 * action_weight
          dictSet acc f.candidate_id (dictGetD acc f.candidate_id 0 + score)) acc) []
    (candidate_scores.mergeSort (fun a b => b.2 ≤ a.2)).take limit

/-- `DataStore.get_popular_candidates`: count positive engagements per
candidate over all feedback, sorted descending (stable), capped at
`limit`. -/
def getPopularCandidates (store : DataStore) (limit : ℕ) : List (String × ℕ) :=
  let engagement_counts := store.feedback.foldl (fun acc f =>
    if f.action ∈ POSITIVE_ACTIONS then
      dictSet acc f.candidate_id (dictGetD acc f.candidate_id 0 + 1)
    else acc) []
  (engagement_counts.mergeSort (fun a b => b.2 ≤ a.2)).take limit

/-! ### `text_similarity.py` — TextSimilarity -/

/-- The stopword set of `TextSimilarity.__init__`. -/
def STOPWORDS : List String :=
  ["a", "an", "the", "and", "or", "but", "in", "on", "at", "to", "for",
   "of", "with", "by", "from", "as", "is", "was", "are", "were", "been",
   "be", "have", "has", "had", "do", "does", "did", "will", "would",
   "could", "should", "may", "might", "must", "shall", "can", "this",
   "that", "these", "those", "i", "you", "he", "she", "it", "we", "they",
   "what", "which", "who", "whom", "whose", "where", "when", "why", "how",
   "all", "each", "every", "both", "few", "more", "most", "other", "some",
   "such", "no", "not", "only", "own", "same", "so", "than", "too", "very"]

/-- A regex word character (`\w`) of the lowercased ASCII text:
`[a-z0-9_]` (non-ASCII behaviour is outside the modelling scope; every
property proved here uses ASCII strings). -/
def isWordChar (c : Char) : Bool := c.isAlphanum || c == '_'

/-- Maximal runs of word characters in a character list — the `\b`
boundaries of the tokenizing regex fall exactly at the edges of these
runs. -/
def wordRuns : List Char → List (List Char)
| [] => []
| c :: cs =>
  let rest := wordRuns cs
  if isWordChar c then
    match cs, rest with
    | c' :: _, r :: rs => if isWordChar c' then (c :: r) :: rs else [c] :: rest
    | _, _ => [c] :: rest
  else rest

/-- `TextSimilarity.tokenize`: lowercase, take the matches of
`re.findall(r'\b[a-z][a-z0-9]*\b', ...)` — a maximal word-character run is
a match exactly when it starts with a letter and contains no underscore —
then drop stopwords and words of length ≤ 2. -/
def tokenize (text : String) : List String :=
  let lowered := text.toList.map Char.toLower
  let words := (wordRuns lowered).filterMap (fun r =>
    match r with
    | [] => none
    | c :: _ =>
      if c.isLower && r.all (fun ch => ch.isLower || ch.isDigit) then
        some (String.mk r)
      else none)
  words.filter (fun w => w ∉ STOPWORDS ∧ w.length > 2)

/-- `TextSimilarity.compute_tf`: augmented term frequency per distinct
term.  The TF dict is keyed by the distinct tokens; its iteration order is
immaterial to every property proved here, so the distinct terms are listed
via `dedup`. -/
def computeTf (tokens : List String) : List (String × ℚ) :=
  if tokens.isEmpty then []
  else
    let max_freq := listMaxNat ((tokens.dedup).map (fun t => tokens.count t))
    (tokens.dedup).map (fun t =>
      (t, 1/2 + 1/2 * ((tokens.count t : ℚ) / (max_freq : ℚ))))

/-- The mutable state of a `TextSimilarity` instance (its `__init__`
defaults are the field defaults). -/
structure TextSimilarity : Type where
  document_frequencies : List (String × ℕ) := []
  num_documents : ℕ := 0
deriving DecidableEq, Repr

/-- Python's `math.log` and `math.sqrt` raise `ValueError` ("math domain
error") outside their domains. -/
inductive MathError : Type
| domain
deriving DecidableEq, Repr

/-- `TextSimilarity.compute_idf`: `log(N / (1 + df))`.  The numeric value
of the logarithm is irrelevant to every property proved here, so the
embedding is parametric in `logVal`, the value of `math.log` on positive
arguments; `math.log` raises `ValueError` on a non-positive argument — in
particular on `0/(1+df)` when no index has been built (`N = 0`). -/
def computeIdf (logVal : ℚ → ℚ) (ts : TextSimilarity) (term : String) :
    Except MathError ℚ :=
  let df := dictGetD ts.document_frequencies term 0
  let arg : ℚ := (ts.num_documents : ℚ) / (1 + (df : ℚ))
  if 0 < arg then .ok (logVal arg) else .error .domain

/-- `TextSimilarity.build_index`: reset the document-frequency dict and
count, for each document, its distinct tokens (`set(...)` iteration order
is immaterial: each distinct token is bumped exactly once). -/
def buildIndex (ts : TextSimilarity) (documents : List String) : TextSimilarity :=
  { ts with
    num_documents := documents.length,
    document_frequencies := documents.foldl (fun acc doc =>
      ((tokenize doc).dedup).foldl (fun acc token =>
        dictSet acc token (dictGetD acc token 0 + 1)) acc) [] }

/-- `TextSimilarity.compute_tfidf_vector`: TF(t) × IDF(t) per term; an
exception from `compute_idf` propagates. -/
def computeTfidfVector (logVal : ℚ → ℚ) (ts : TextSimilarity) (text : String) :
    Except MathError (List (String × ℚ)) :=
  let tokens := tokenize text
  let tf := computeTf tokens
  tf.mapM (fun p => (computeIdf logVal ts p.1).map (fun idf => (p.1, p.2 * idf)))

/-- `TextSimilarity.cosine_similarity`, parametric in `sqrtVal`, the value
of `math.sqrt` on its (always non-negative) arguments. -/
def cosineSimilarity (sqrtVal : ℚ → ℚ) (vec1 vec2 : List (String × ℚ)) : ℚ :=
  if vec1.isEmpty || vec2.isEmpty then 0
  else
    let common_terms := (vec1.map Prod.fst).filter (fun t => t ∈ vec2.map Prod.fst)
    if common_terms.isEmpty then 0
    else
      let dot_product := (common_terms.map (fun t =>
        dictGetD vec1 t 0 * dictGetD vec2 t 0)).sum
      let mag1 := sqrtVal ((vec1.map (fun p => p.2 ^ 2)).sum)
      let mag2 := sqrtVal ((vec2.map (fun p => p.2 ^ 2)).sum)
      if mag1 = 0 || mag2 = 0 then 0
      else dot_product / (mag1 * mag2)

/-- `TextSimilarity.similarity`. -/
def similarity (logVal sqrtVal : ℚ → ℚ) (ts : TextSimilarity)
    (text1 text2 : String) : Except MathError ℚ := do
  let vec1 ← computeTfidfVector logVal ts text1
  let vec2 ← computeTfidfVector logVal ts text2
  pure (cosineSimilarity sqrtVal vec1 vec2)

/-! ### `recommendation.py` — retrieval, collaborative filtering, ranking,
engine -/

/-- `RetrievalService.retrieve_candidates`: interests (`list(set(...))` —
order immaterial, only membership is used) plus activity keywords, fetch by
keywords capped at `2×limit`, drop already-shown candidates, cap at
`limit`. -/
def retrieveCandidates (store : DataStore) (user : User) (limit : ℕ) : List Candidate :=
  let keywords := user.topics_of_interest.dedup ++ getUserKeywords store user.id
  let candidates := getCandidatesByKeywords store keywords (limit * 2)
  let shown_ids := getShownCandidates store user.id
  ((candidates.filter (fun c => c.id ∉ shown_ids)).take limit)

/-- The first half of `CollaborativeFilteringService.get_cf_scores`: the
similar-user scores normalized by their maximum
(`score / max_score if max_score > 0 else 0`). -/
def cfSimilarityScores (store : DataStore) (user_id : String) : List (String × ℚ) :=
  let similar_user_candidates := getCandidatesEngagedBySimilarUsers store user_id 50
  if similar_user_candidates.isEmpty then []
  else
    let max_score := listMaxQ (similar_user_candidates.map Prod.snd)
    similar_user_candidates.foldl (fun acc p =>
      dictSet acc p.1 (if 0 < max_score then p.2 / max_score else 0)) []

/-- `CollaborativeFilteringService.get_cf_scores` on a cache miss: the
normalized similar-user scores blended with the popularity signal
(`cf_scores.get(cid, 0) + (count/max_pop) * 0.3`).  The TTL-free
`_cf_cache` only ever stores results of this same computation (and an
engine builds one fresh, empty-cached service per `RankingService`), so the
cached value for a user is always the value of this function; the cache is
therefore elided from the embedding. -/
def getCfScores (store : DataStore) (user_id : String) : List (String × ℚ) :=
  let cf_scores₁ := cfSimilarityScores store user_id
  let popular := getPopularCandidates store 20
  if popular.isEmpty then cf_scores₁
  else
    let max_pop := listMaxNat (popular.map Prod.snd)
    popular.foldl (fun acc p =>
      let pop_score : ℚ := if 0 < max_pop then ((p.2 : ℚ) / (max_pop : ℚ)) * (3/10) else 0
      dictSet acc p.1 (dictGetD acc p.1 0 + pop_score)) cf_scores₁

/-- `RankingService._compute_score`: the six weighted components and their
explanation signals; returns `(score, signals)` where the final score is
`min(total_score / 1.0, 1.0)` — capped above, with no lower clamp.  Each
component's score expression is hoisted out of its guard (the guards are
identical to the source's; the signal lists repeat the same guards). -/
def computeScore (now : Clock) (candidate : Candidate) (user : User)
    (activities : List UserActivity) (context : Option UserContext)
    (cf_scores : List (String × ℚ)) : ℚ × List Signal :=
  -- 1. Interest match (weight 0.35)
  let interest_matches := candidate.matchesInterests user.topics_of_interest
  let interest_score := min ((interest_matches : ℚ) / 3) 1 * (35/100)
  let comps₁ := if 0 < interest_matches then [interest_score] else []
  let sigs₁ :=
    if 0 < interest_matches then
      [{ type := "match", description := .matchesInterests interest_matches,
         weight := interest_score : Signal }]
    else []
  -- 2. Activity relevance (weight 0.25), over the 10 most recent activities
  let activity_keywords := (activities.take 10).foldl (fun acc a =>
    acc ++ a.keywords ++
      (if a.query ≠ "" then pySplitWhitespace a.query.toLower else [])) []
  let activity_matches :=
    ((candidate.keywords.dedup).filter (fun k => k ∈ activity_keywords)).length
  let activity_score := min ((activity_matches : ℚ) / 5) 1 * (25/100)
  let comps₂ := if 0 < activity_matches then [activity_score] else []
  let sigs₂ :=
    if 0 < activity_matches then
      match activities.head? with
      | some recent_activity =>
        if recent_activity.activity_type = "article_read" then
          [{ type := "reading_history", description := .readingHistory,
             weight := activity_score : Signal }]
        else if recent_activity.activity_type = "search" then
          [{ type := "search_history", description := .searchHistory,
             weight := activity_score : Signal }]
        else []
      | none => []
    else []
  -- 3. Collaborative filtering (weight 0.15)
  let cf_hit := ¬ cf_scores.isEmpty ∧ (dictGet cf_scores candidate.id).isSome
  let cf_score := (dictGet cf_scores candidate.id).getD 0 * (15/100)
  let comps₃ := if cf_hit then [cf_score] else []
  let sigs₃ :=
    if cf_hit then
      if 5/100 < cf_score then
        [{ type := "similar_users", description := .similarUsers,
           weight := cf_score : Signal }]
      else []
    else []
  -- 4. Engagement score (weight 0.10), always appended, no signal
  let engagement_score := min (candidate.engagement_score / 5) 1 * (10/100)
  -- 5. Recency (weight 0.10); an unparseable created_at skips the component
  let days_old? : Option ℤ :=
    match candidate.created_at with
    | TimeStr.iso created => some ⌊(now.t - created) / 24⌋
    | TimeStr.junk _ => none
  let comps₅ :=
    match days_old? with
    | some days_old => [max 0 (1 - (days_old : ℚ) / 30) * (10/100)]
    | none => []
  let sigs₅ :=
    match days_old? with
    | some days_old =>
      if days_old < 3 then
        [{ type := "trending", description := .trending,
           weight := max 0 (1 - (days_old : ℚ) / 30) * (10/100) : Signal }]
      else []
    | none => []
  -- 6. Timing (weight 0.05)
  let comps₆ :=
    match context with
    | some ctx => [ctx.receptivity_score * (5/100)]
    | none => []
  let sigs₆ :=
    match context with
    | some ctx =>
      if 7/10 < ctx.receptivity_score then
        [{ type := "timing", description := .timing,
           weight := ctx.receptivity_score * (5/100) : Signal }]
      else []
    | none => []
  let score_components := comps₁ ++ comps₂ ++ comps₃ ++ [engagement_score] ++ comps₅ ++ comps₆
  let signals := sigs₁ ++ sigs₂ ++ sigs₃ ++ sigs₅ ++ sigs₆
  let total_score := score_components.sum
  let normalized_score := min (total_score / 1) 1
  (normalized_score, signals)

/-- The walk of `RankingService._apply_diversity`: multiply the score of
every item whose category was already seen earlier by 0.8 (the category is
added to the seen set whether or not the penalty fired). -/
def diversityWalk : List ScoredCandidate → List String → List ScoredCandidate
| [], _ => []
| item :: rest, seen_categories =>
  let category := item.candidate.category
  let item' :=
    if category ∈ seen_categories then { item with score := item.score * (8/10) }
    else item
  item' :: diversityWalk rest (category :: seen_categories)

/-- `RankingService._apply_diversity`: the walk followed by a (stable)
re-sort descending by score. -/
def applyDiversity (scored : List ScoredCandidate) : List ScoredCandidate :=
  (diversityWalk scored []).mergeSort (fun a b => b.score ≤ a.score)

/-- `RankingService.rank_candidates`. -/
def rankCandidates (now : Clock) (store : DataStore) (candidates : List Candidate)
    (user : User) (context : Option UserContext) : List ScoredCandidate :=
  let user_activities := getUserActivity store user.id 20
  let cf_scores := getCfScores store user.id
  let scored := candidates.map (fun candidate =>
    let sc := computeScore now candidate user user_activities context cf_scores
    { candidate := candidate, score := sc.1, signals := sc.2 : ScoredCandidate })
  let sorted := scored.mergeSort (fun a b => b.score ≤ a.score)
  applyDiversity sorted

/-- `RecommendationEngine.get_recommendations`. -/
def getRecommendations (now : Clock) (store : DataStore) (user_id : String)
    (limit : ℕ) (context : Option UserContext) : List ScoredCandidate :=
  let user := (getUser store user_id).getD
    { id := user_id, name := "Anonymous", email := "", topics_of_interest := ["general"] }
  let candidates := retrieveCandidates store user (limit * 5)
  let candidates :=
    if candidates.isEmpty then (getAllCandidates store).take (limit * 3) else candidates
  (rankCandidates now store candidates user context).take limit

/-- `RecommendationEngine.get_proactive_suggestion`: the top of
`get_recommendations(limit=1)`, unless its score is below 0.5. -/
def getProactiveSuggestion (now : Clock) (store : DataStore) (user_id : String)
    (context : Option UserContext) : Option ScoredCandidate :=
  match getRecommendations now store user_id 1 context with
  | [] => none
  | top :: _ => if top.score < 1/2 then none else some top

/-- A concrete store exercising the popularity blend of `get_cf_scores`:
u2 shares u1's single interest (Jaccard 1) and has started candidate c1,
making c1 both the top similar-user candidate and the most popular one. -/
def cfBlendStore : DataStore :=
  { users := [{ id := "u1", topics_of_interest := ["a"] },
              { id := "u2", topics_of_interest := ["a"] }],
    feedback := [{ id := "f1", user_id := "u2", candidate_id := "c1",
                   action := "started" }] }

/-- A concrete store on which the top recommendation scores exactly 0.5:
the user's three interests all match the single candidate (interest
component min(3/3,1)×0.35 = 0.35) and the three activity keywords match as
well (activity component min(3/5,1)×0.25 = 0.15); every other component is
0 or skipped. -/
def halfScoreStore : DataStore :=
  { candidates := [{ id := "c1", category := "learning",
                     keywords := ["a", "b", "c", "d", "e", "f"] }],
    users := [{ id := "u1", topics_of_interest := ["a", "b", "c"] }],
    user_activity := [{ user_id := "u1", activity_type := "search",
                        keywords := ["d", "e", "f"] }] }

/-! ## Helper lemmas -/

theorem dictGet_dictSet_self {α : Type} (d : List (String × α)) (k : String) (v : α) :
    dictGet (dictSet d k v) k = some v := by
  induction d with
  | nil => simp [dictGet, dictSet]
  | cons p ps ih =>
    by_cases h : p.1 = k
    · simp [dictGet, dictSet, h]
    · simp [dictGet, dictSet, h, ih]

theorem dictGet_dictSet_ne {α : Type} (d : List (String × α)) (k k' : String) (v : α)
    (h : k' ≠ k) : dictGet (dictSet d k v) k' = dictGet d k' := by
  induction d with
  | nil => simp [dictGet, dictSet, Ne.symm h]
  | cons p ps ih =>
    by_cases hp : p.1 = k
    · have hpk' : ¬ p.1 = k' := fun hc => h (hc.symm.trans hp)
      have hkk' : ¬ k = k' := Ne.symm h
      simp [dictGet, dictSet, hp, hpk', hkk']
    · by_cases hp' : p.1 = k'
      · simp [dictGet, dictSet, hp, hp', h]
      · simp [dictGet, dictSet, hp, hp', ih]

theorem mem_dictSet {α : Type} (d : List (String × α)) (k : String) (v : α) :
    ∀ q ∈ dictSet d k v, q = (k, v) ∨ q ∈ d := by
  induction d with
  | nil => simp [dictSet]
  | cons p ps ih =>
    intro q hq
    by_cases h : p.1 = k
    · simp [dictSet, h] at hq
      rcases hq with hq | hq
      · exact Or.inl (by simp [hq])
      · exact Or.inr (by simp [hq])
    · simp [dictSet, h] at hq
      rcases hq with hq | hq
      · exact Or.inr (by simp [hq])
      · rcases ih q hq with h' | h'
        · exact Or.inl h'
        · exact Or.inr (by simp [h'])

theorem dictGet_mem {α : Type} (d : List (String × α)) (k : String) (v : α)
    (h : dictGet d k = some v) : (k, v) ∈ d := by
  induction d with
  | nil => simp [dictGet] at h
  | cons p ps ih =>
    by_cases hp : p.1 = k
    · simp [dictGet, hp] at h
      have hpv : p = (k, v) := by
        cases p
        simp_all
      rw [← hpv]
      exact List.mem_cons_self _ _
    · simp [dictGet, hp] at h
      exact List.mem_cons_of_mem _ (ih h)

theorem dictKeys_dictSet_sub {α : Type} (d : List (String × α)) (k : String) (v : α) :
    ∀ x ∈ (dictSet d k v).map Prod.fst, x = k ∨ x ∈ d.map Prod.fst := by
  intro x hx
  simp only [List.mem_map] at hx
  obtain ⟨q, hq, hqx⟩ := hx
  rcases mem_dictSet d k v q hq with h' | h'
  · left
    rw [← hqx, h']
  · right
    rw [← hqx]
    exact List.mem_map_of_mem _ h'

theorem dictKeys_nodup_dictSet {α : Type} (d : List (String × α)) (k : String) (v : α)
    (h : (d.map Prod.fst).Nodup) : ((dictSet d k v).map Prod.fst).Nodup := by
  induction d with
  | nil => simp [dictSet]
  | cons p ps ih =>
    by_cases hp : p.1 = k
    · simpa [dictSet, hp] using h
    · simp only [List.map_cons, List.nodup_cons] at h
      simp only [dictSet, if_neg hp, List.map_cons, List.nodup_cons]
      refine ⟨?_, ih h.2⟩
      intro hc
      rcases dictKeys_dictSet_sub ps k v _ (by simpa using hc) with h1 | h1
      · exact hp h1
      · exact h.1 (by simpa using h1)

theorem le_foldl_max_init {α : Type} [LinearOrder α] (xs : List α) (x : α) :
    x ≤ xs.foldl max x := by
  induction xs generalizing x with
  | nil => simp
  | cons y ys ih => exact le_trans (le_max_left x y) (ih (max x y))

theorem le_foldl_max {α : Type} [LinearOrder α] (xs : List α) (x a : α)
    (h : a = x ∨ a ∈ xs) : a ≤ xs.foldl max x := by
  induction xs generalizing x with
  | nil =>
    rcases h with h | h
    · simp [h]
    · simp at h
  | cons y ys ih =>
    simp only [List.foldl_cons]
    rcases h with h | h
    · subst h
      exact le_trans (le_max_left a y) (le_foldl_max_init ys (max a y))
    · rcases List.mem_cons.mp h with h | h
      · subst h
        exact le_trans (le_max_right x a) (le_foldl_max_init ys (max x a))
      · exact ih (max x y) (Or.inr h)

theorem mem_le_listMaxQ (l : List ℚ) (a : ℚ) (h : a ∈ l) : a ≤ listMaxQ l := by
  cases l with
  | nil => simp at h
  | cons x xs =>
    rcases List.mem_cons.mp h with h | h
    · exact le_foldl_max xs x a (Or.inl h)
    · exact le_foldl_max xs x a (Or.inr h)

theorem mem_le_listMaxNat (l : List ℕ) (a : ℕ) (h : a ∈ l) : a ≤ listMaxNat l := by
  cases l with
  | nil => simp at h
  | cons x xs =>
    rcases List.mem_cons.mp h with h | h
    · exact le_foldl_max xs x a (Or.inl h)
    · exact le_foldl_max xs x a (Or.inr h)


/-! ## Trigger service lemmas and claims -/

theorem shouldTrigger_not_paused (store : DataStore) (now : Clock) (user : User)
    (recommendation : ScoredCandidate) (context : Option UserContext)
    (h : pauseActive now user = false) :
    shouldTrigger store now user recommendation context =
      shouldTriggerFromWindow store now user recommendation context := by
  unfold shouldTrigger pauseActive at *
  match hpu : user.paused_until with
  | some (TimeStr.iso pause_end) =>
    rw [hpu] at h
    simp only [decide_eq_false_iff_not] at h
    simp [h]
  | some (TimeStr.junk s) => simp
  | none => simp

/-- C1 (amended): for a user with no active pause, whenever the current hour
fails the plain membership test `start ≤ hour < end` (no wraparound in the
membership test: for `start > end` every hour fails it, including hours
inside the wrapped window), `should_trigger` returns QUEUE with
`retry_after = ((start − hour) mod 24)` hours, reason citing the preferred
hours, and the default priority `0.5`. -/
theorem c1_queue_outside_preferred_window (store : DataStore) (now : Clock) (user : User)
    (recommendation : ScoredCandidate) (context : Option UserContext)
    (hpause : pauseActive now user = false)
    (hwin : ¬ (user.preferred_hour_start ≤ now.hour ∧ now.hour < user.preferred_hour_end)) :
    shouldTrigger store now user recommendation context =
      { decision := .queue,
        reason := .outsidePreferredHours user.preferred_hour_start user.preferred_hour_end,
        retry_after := some (((user.preferred_hour_start - now.hour) % 24 : ℤ) : ℚ),
        priority := 1/2 } := by
  rw [shouldTrigger_not_paused store now user recommendation context hpause]
  unfold shouldTriggerFromWindow
  rw [if_pos hwin]

/-- Witness for C1 (amended): the spec scenario — preferred hours 9–18,
current hour 20, no pause — yields QUEUE with retry_after 13 hours. -/
theorem c1_witness :
    shouldTrigger {} { t := 500, hour := 20 } { id := "u1" }
      { candidate := { id := "c1", category := "news", keywords := [] }, score := 9/10 } none =
      { decision := .queue, reason := .outsidePreferredHours 9 18,
        retry_after := some 13, priority := 1/2 } := by
  rw [c1_queue_outside_preferred_window {} { t := 500, hour := 20 } { id := "u1" }
    { candidate := { id := "c1", category := "news", keywords := [] }, score := 9/10 } none
    (by decide) (by decide)]
  norm_num [TriggerResult.mk.injEq]

/-- C1 counterexample: for the wraparound window `start = 22, end = 6` the
hour 23 lies inside the wrapped window, yet the code QUEUEs it — the
membership test `start <= hour < end` has no wraparound (only the retry
computation uses `% 24`), so the claim's wraparound reading is false. -/
theorem c1_counterexample :
    (shouldTrigger {} { t := 0, hour := 23 }
      { id := "u-wrap", preferred_hour_start := 22, preferred_hour_end := 6 }
      { candidate := { id := "c1", category := "news", keywords := [] }, score := 9/10 }
      none).decision = TriggerDecision.queue := by decide

/-- C7 (confirmed): with no active pause, the current hour inside the
preferred window, no feedback logged for the user (so the frequency check is
skipped), and a recommendation score below 0.5, `should_trigger` returns
SKIP with the raw score as priority (no `_compute_priority` boost) and a
reason citing the low score. -/
theorem c7_skip_low_score (store : DataStore) (now : Clock) (user : User)
    (recommendation : ScoredCandidate) (context : Option UserContext)
    (hpause : pauseActive now user = false)
    (hwin : user.preferred_hour_start ≤ now.hour ∧ now.hour < user.preferred_hour_end)
    (hfb : store.feedback.filter (fun f => f.user_id = user.id) = [])
    (hscore : recommendation.score < 1/2) :
    shouldTrigger store now user recommendation context =
      { decision := .skip, reason := .scoreTooLow recommendation.score,
        retry_after := none, priority := recommendation.score } := by
  rw [shouldTrigger_not_paused store now user recommendation context hpause]
  unfold shouldTriggerFromWindow
  rw [if_neg (not_not_intro hwin)]
  unfold shouldTriggerFromFrequency getLastMessageTime
  rw [hfb]
  simp only [List.isEmpty_nil, if_true]
  unfold shouldTriggerFromQuality
  rw [if_pos hscore]

/-- Witness for C7: a concrete user inside their window with no feedback and
a score of 0.4 is SKIPped with priority 0.4. -/
theorem c7_witness :
    shouldTrigger {} { t := 100, hour := 10 } { id := "u1" }
      { candidate := { id := "c1", category := "news", keywords := [] }, score := 2/5 } none =
      { decision := .skip, reason := .scoreTooLow (2/5), retry_after := none,
        priority := 2/5 } := by
  rw [c7_skip_low_score {} { t := 100, hour := 10 } { id := "u1" }
    { candidate := { id := "c1", category := "news", keywords := [] }, score := 2/5 } none
    (by decide) (by decide) (by decide) (by norm_num)]

/-- C8 (confirmed): `should_trigger` is total — the embedding is a total
function covering malformed `paused_until` (`TimeStr.junk`) and missing or
malformed feedback `created_at` (`none` / `TimeStr.junk`), and the decision
of the unique returned `TriggerResult` is one of trigger/wait/queue/skip. -/
theorem c8_should_trigger_total (store : DataStore) (now : Clock) (user : User)
    (recommendation : ScoredCandidate) (context : Option UserContext) :
    (shouldTrigger store now user recommendation context).decision = .trigger ∨
    (shouldTrigger store now user recommendation context).decision = .wait ∨
    (shouldTrigger store now user recommendation context).decision = .queue ∨
    (shouldTrigger store now user recommendation context).decision = .skip := by
  cases hd : (shouldTrigger store now user recommendation context).decision <;> simp

/-- C9 (confirmed): a truthy but unparseable `paused_until` is silently
treated as no pause at all — `should_trigger` behaves identically to the
same user with `paused_until = None`, proceeding to the window and later
checks. -/
theorem c9_malformed_pause_ignored (store : DataStore) (now : Clock) (user : User)
    (recommendation : ScoredCandidate) (context : Option UserContext) (s : String) :
    shouldTrigger store now { user with paused_until := some (TimeStr.junk s) }
        recommendation context =
      shouldTrigger store now { user with paused_until := none } recommendation context := rfl

/-! ## TextSimilarity claims -/

/-- C2 counterexample: with no index built (`N = 0`), `compute_idf` on the
unseen term "foo" evaluates `math.log(0/(1+0))`, which raises `ValueError`
— it does not return the value 0.  (The error branch never consults the
logarithm, so `logVal` is instantiated arbitrarily.) -/
theorem c2_counterexample :
    computeIdf (fun _ => (0 : ℚ)) {} "foo" = Except.error MathError.domain := by
  simp [computeIdf, dictGetD, dictGet]

/-- C2 (amended): if `build_index` has never been called (`N = 0`), then
`compute_idf` raises a math domain error (`log(0/(1+0))`) on every term —
it is not the defined value 0 — and `compute_tfidf_vector` and
`similarity` on any text with at least one token raise as well; once the
index is non-degenerate (`N ≥ 1`), `compute_idf` is defined on every term
and returns `log(N/(1+df))`. -/
theorem c2_idf_domain_error (logVal sqrtVal : ℚ → ℚ) (ts : TextSimilarity)
    (term text text2 : String) :
    (ts.num_documents = 0 → tokenize text ≠ [] →
      computeIdf logVal ts term = Except.error MathError.domain ∧
      computeTfidfVector logVal ts text = Except.error MathError.domain ∧
      similarity logVal sqrtVal ts text text2 = Except.error MathError.domain) ∧
    (0 < ts.num_documents →
      computeIdf logVal ts term =
        Except.ok (logVal ((ts.num_documents : ℚ) /
          (1 + ((dictGetD ts.document_frequencies term 0 : ℕ) : ℚ))))) := by
  constructor
  · intro h0 htok
    have herr : ∀ t : String, computeIdf logVal ts t = Except.error MathError.domain := by
      intro t
      simp [computeIdf, h0]
    have htfidf : computeTfidfVector logVal ts text = Except.error MathError.domain := by
      have hne : computeTf (tokenize text) ≠ [] := by
        have hde : (tokenize text).dedup ≠ [] := by
          simpa [List.dedup_eq_nil] using htok
        simp [computeTf, htok, hde]
      rcases hcons : computeTf (tokenize text) with _ | ⟨p, ps⟩
      · exact absurd hcons hne
      · simp only [computeTfidfVector, hcons]
        simp [List.mapM_cons, herr, Except.map]
        rfl
    refine ⟨herr term, htfidf, ?_⟩
    unfold similarity
    rw [htfidf]
    rfl
  · intro hN
    unfold computeIdf
    rw [if_pos]
    apply div_pos
    · exact_mod_cast hN
    · positivity

/-- Witness for C2: on the fresh state (`N = 0`) every query raises; on an
indexed state (`N = 3`, empty frequency dict) `compute_idf` is defined. -/
theorem c2_witness :
    (computeIdf (fun _ => (0 : ℚ)) { num_documents := 0 } "foo" =
        Except.error MathError.domain ∧
      computeTfidfVector (fun _ => (0 : ℚ)) { num_documents := 0 } "hello" =
        Except.error MathError.domain ∧
      similarity (fun _ => (0 : ℚ)) (fun _ => (0 : ℚ)) { num_documents := 0 }
        "hello" "big" = Except.error MathError.domain) ∧
    computeIdf (fun _ => (0 : ℚ)) { num_documents := 3 } "foo" = Except.ok 0 :=
  ⟨(c2_idf_domain_error (fun _ => 0) (fun _ => 0) { num_documents := 0 }
      "foo" "hello" "big").1 rfl (by decide),
   by
    have h := (c2_idf_domain_error (fun _ => (0 : ℚ)) (fun _ => (0 : ℚ))
      { num_documents := 3 } "foo" "hello" "big").2 (by norm_num)
    simpa using h⟩

/-! ## DataStore claims -/

theorem updateCandidateScore_eq_map (cs : List Candidate) (cid : String) (d : ℚ)
    (h : (cs.map Candidate.id).Nodup) :
    updateCandidateScore cs cid d =
      cs.map (fun c =>
        if c.id = cid then { c with engagement_score := c.engagement_score + d } else c) := by
  induction cs with
  | nil => rfl
  | cons c cs ih =>
    simp only [List.map_cons, List.nodup_cons] at h
    by_cases hc : c.id = cid
    · simp only [updateCandidateScore, if_pos hc, List.map_cons]
      congr 1
      have hrest : ∀ c' ∈ cs, ¬ c'.id = cid := by
        intro c' hc' hcc
        exact h.1 (by rw [hc, ← hcc]; exact List.mem_map_of_mem Candidate.id hc')
      have : cs.map (fun c' =>
          if c'.id = cid then { c' with engagement_score := c'.engagement_score + d }
          else c') = cs.map id := by
        apply List.map_congr_left
        intro a ha
        simp [hrest a ha]
      rw [this, List.map_id]
    · simp only [updateCandidateScore, if_neg hc, List.map_cons, ih h.2]

/-- C10 (confirmed): `record_feedback` always appends exactly one feedback
record; for a recognized action (delta from the fixed table: started +1,
replied +0.5, dismissed −0.3, ignored −0.1, dont_show_like_this −1) exactly
the referenced candidate's engagement score changes by the delta and every
other candidate is untouched (ids are unique per the data model); for an
unrecognized action no candidate changes at all. -/
theorem c10_record_feedback_frame (fresh_id : String) (now_iso : TimeStr)
    (store : DataStore) (feedback : FeedbackRecord)
    (h : (store.candidates.map Candidate.id).Nodup) :
    (recordFeedback fresh_id now_iso store feedback).feedback =
        store.feedback ++ [mkFeedbackRecord fresh_id now_iso feedback] ∧
    (∀ d, dictGet SCORE_DELTAS feedback.action = some d →
      (recordFeedback fresh_id now_iso store feedback).candidates =
        store.candidates.map (fun c =>
          if c.id = feedback.candidate_id then
            { c with engagement_score := c.engagement_score + d }
          else c)) ∧
    (dictGet SCORE_DELTAS feedback.action = none →
      (recordFeedback fresh_id now_iso store feedback).candidates = store.candidates) ∧
    dictGet SCORE_DELTAS "started" = some 1 ∧
    dictGet SCORE_DELTAS "replied" = some (1/2) ∧
    dictGet SCORE_DELTAS "dismissed" = some (-(3/10)) ∧
    dictGet SCORE_DELTAS "ignored" = some (-(1/10)) ∧
    dictGet SCORE_DELTAS "dont_show_like_this" = some (-1) := by
  refine ⟨?_, ?_, ?_, rfl, rfl, rfl, rfl, rfl⟩
  · unfold recordFeedback
    by_cases hd : dictGetD SCORE_DELTAS feedback.action 0 ≠ 0 <;> simp [hd]
  · intro d hd
    have hdelta : dictGetD SCORE_DELTAS feedback.action 0 = d := by
      simp [dictGetD, hd]
    have hdne : d ≠ 0 := by
      simp only [SCORE_DELTAS, dictGet] at hd
      split_ifs at hd <;> · rw [Option.some.injEq] at hd; rw [← hd]; norm_num
    unfold recordFeedback
    rw [hdelta, if_pos hdne]
    exact updateCandidateScore_eq_map store.candidates feedback.candidate_id d h
  · intro hd
    have hdelta : dictGetD SCORE_DELTAS feedback.action 0 = 0 := by
      simp [dictGetD, hd]
    unfold recordFeedback
    rw [hdelta]
    simp

/-- Witness for C10: feedback "started" on candidate c1 bumps exactly c1's
engagement score from 0 to 1 and leaves c2 at 2, while appending the
record. -/
theorem c10_witness :
    (recordFeedback "fid" (TimeStr.iso 0)
        { candidates := [{ id := "c1", category := "news", keywords := [] },
                         { id := "c2", category := "work", keywords := [],
                           engagement_score := 2 }] }
        { id := "", user_id := "u1", candidate_id := "c1", action := "started" }).candidates =
      [{ id := "c1", category := "news", keywords := [], engagement_score := 1 },
       { id := "c2", category := "work", keywords := [], engagement_score := 2 }] ∧
    (recordFeedback "fid" (TimeStr.iso 0)
        { candidates := [{ id := "c1", category := "news", keywords := [] },
                         { id := "c2", category := "work", keywords := [],
                           engagement_score := 2 }] }
        { id := "", user_id := "u1", candidate_id := "c1", action := "started" }).feedback =
      [{ id := "fid", user_id := "u1", candidate_id := "c1", action := "started",
         created_at := some (TimeStr.iso 0) }] := by
  have h := c10_record_feedback_frame "fid" (TimeStr.iso 0)
    { candidates := [{ id := "c1", category := "news", keywords := [] },
                     { id := "c2", category := "work", keywords := [],
                       engagement_score := 2 }] }
    { id := "", user_id := "u1", candidate_id := "c1", action := "started" }
    (by decide)
  refine ⟨?_, ?_⟩
  · rw [h.2.1 1 rfl]
    norm_num
    decide
  · rw [h.1]
    rfl

/-! ## Collaborative filtering lemmas -/

theorem foldl_preserve {α β : Type} (P : α → Prop) (g : α → β → α) (l : List β) (a : α)
    (ha : P a) (hstep : ∀ x b, P x → b ∈ l → P (g x b)) : P (l.foldl g a) := by
  induction l generalizing a with
  | nil => exact ha
  | cons b bs ih =>
    exact ih (g a b) (hstep a b ha (by simp))
      (fun x c hx hc => hstep x c hx (by simp [hc]))

theorem mem_of_mem_sortTake {α : Type} (le : α → α → Bool) (l : List α) (n : ℕ) (a : α)
    (h : a ∈ (l.mergeSort le).take n) : a ∈ l :=
  (List.mergeSort_perm l le).mem_iff.mp (List.mem_of_mem_take h)

theorem findSimilarUsers_pos (store : DataStore) (user_id : String) (limit : ℕ) :
    ∀ p ∈ findSimilarUsers store user_id limit, 0 < p.2 := by
  intro p hp
  simp only [findSimilarUsers] at hp
  split at hp
  · simp at hp
  · split at hp
    · simp at hp
    · have hmem := mem_of_mem_sortTake _ _ _ _ hp
      rw [List.mem_filterMap] at hmem
      obtain ⟨u, _, hfu⟩ := hmem
      split_ifs at hfu with h1 h2 h3 h4
      rw [Option.some.injEq] at hfu
      rw [← hfu]
      exact h4

theorem engaged_scores_nonneg (store : DataStore) (user_id : String) (limit : ℕ) :
    ∀ p ∈ getCandidatesEngagedBySimilarUsers store user_id limit, 0 ≤ p.2 := by
  intro p hp
  simp only [getCandidatesEngagedBySimilarUsers] at hp
  split at hp
  · simp at hp
  · have hmem := mem_of_mem_sortTake _ _ _ _ hp
    refine foldl_preserve (fun d : List (String × ℚ) => ∀ q ∈ d, 0 ≤ q.2) _ _ _ (by simp) ?_ p hmem
    intro acc b hacc hb
    refine foldl_preserve (fun d : List (String × ℚ) => ∀ q ∈ d, 0 ≤ q.2) _ _ _ hacc ?_
    intro acc' f hacc' hf q hq
    by_cases hseen : f.candidate_id ∈ getShownCandidates store user_id
    · rw [if_pos hseen] at hq
      exact hacc' q hq
    · rw [if_neg hseen] at hq
      rcases mem_dictSet _ _ _ q hq with h | h
      · rw [h]
        have h0 : 0 ≤ dictGetD acc' f.candidate_id 0 := by
          unfold dictGetD
          cases hg : dictGet acc' f.candidate_id with
          | none => simp
          | some v => simpa using hacc' (f.candidate_id, v) (dictGet_mem _ _ _ hg)
        have hw : 0 ≤ b.2 * (if f.action = "started" then (1 : ℚ) else 1/2) := by
          refine mul_nonneg (le_of_lt (findSimilarUsers_pos store user_id 10 b hb)) ?_
          split <;> norm_num
        exact add_nonneg h0 hw
      · exact hacc' q h

theorem cfSimilarityScores_bounds (store : DataStore) (user_id : String) :
    ∀ p ∈ cfSimilarityScores store user_id, 0 ≤ p.2 ∧ p.2 ≤ 1 := by
  intro p hp
  simp only [cfSimilarityScores] at hp
  split at hp
  · simp at hp
  · refine foldl_preserve
      (fun d : List (String × ℚ) => ∀ q ∈ d, 0 ≤ q.2 ∧ q.2 ≤ 1) _ _ _ (by simp) ?_ p hp
    intro acc b hacc hb q hq
    rcases mem_dictSet _ _ _ q hq with h | h
    · rw [h]
      split_ifs with hmax
      · constructor
        · exact div_nonneg (engaged_scores_nonneg store user_id 50 b hb) (le_of_lt hmax)
        · show b.2 / _ ≤ 1
          rw [div_le_one hmax]
          exact mem_le_listMaxQ _ _ (List.mem_map_of_mem Prod.snd hb)
      · norm_num
    · exact hacc q h

theorem sortTake_keys_nodup {β : Type} (l : List (String × β))
    (le : (String × β) → (String × β) → Bool) (n : ℕ)
    (h : (l.map Prod.fst).Nodup) : (((l.mergeSort le).take n).map Prod.fst).Nodup := by
  have hperm : ((l.mergeSort le).map Prod.fst).Perm (l.map Prod.fst) :=
    (List.mergeSort_perm l le).map Prod.fst
  have hnodup : ((l.mergeSort le).map Prod.fst).Nodup := hperm.nodup_iff.mpr h
  rw [List.map_take]
  exact List.Nodup.sublist (List.take_sublist n _) hnodup

theorem getPopularCandidates_keys_nodup (store : DataStore) (limit : ℕ) :
    ((getPopularCandidates store limit).map Prod.fst).Nodup := by
  simp only [getPopularCandidates]
  apply sortTake_keys_nodup
  refine foldl_preserve
    (fun d : List (String × ℕ) => (d.map Prod.fst).Nodup) _ _ _ (by simp) ?_
  intro acc f hacc _
  split
  · exact dictKeys_nodup_dictSet _ _ _ hacc
  · exact hacc

theorem foldl_blend_bounds (pop : String × ℕ → ℚ) (l : List (String × ℕ))
    (hpop : ∀ q ∈ l, 0 ≤ pop q ∧ pop q ≤ 3/10)
    (hkeys : (l.map Prod.fst).Nodup) (d : List (String × ℚ))
    (hd : ∀ q ∈ d, 0 ≤ q.2 ∧ q.2 ≤ 13/10)
    (hd2 : ∀ k ∈ l.map Prod.fst, 0 ≤ dictGetD d k 0 ∧ dictGetD d k 0 ≤ 1) :
    ∀ q ∈ l.foldl (fun acc p => dictSet acc p.1 (dictGetD acc p.1 0 + pop p)) d,
      0 ≤ q.2 ∧ q.2 ≤ 13/10 := by
  induction l generalizing d with
  | nil => exact fun q hq => hd q hq
  | cons b bs ih =>
    simp only [List.foldl_cons]
    simp only [List.map_cons, List.nodup_cons] at hkeys
    have hb2 := hd2 b.1 (by simp)
    have hpb := hpop b (by simp)
    apply ih
    · intro q hq
      exact hpop q (List.mem_cons_of_mem _ hq)
    · exact hkeys.2
    · intro q hq
      rcases mem_dictSet _ _ _ q hq with h | h
      · rw [h]
        constructor
        · exact add_nonneg hb2.1 hpb.1
        · show dictGetD d b.1 0 + pop b ≤ 13/10
          calc dictGetD d b.1 0 + pop b ≤ 1 + 3/10 := add_le_add hb2.2 hpb.2
            _ = 13/10 := by norm_num
      · exact hd q h
    · intro k hk
      have hkb : ¬ k = b.1 := fun hc => hkeys.1 (by rw [← hc]; exact hk)
      have hsame : dictGetD (dictSet d b.1 (dictGetD d b.1 0 + pop b)) k 0 =
          dictGetD d k 0 := by
        unfold dictGetD
        rw [dictGet_dictSet_ne d b.1 k _ hkb]
      rw [hsame]
      exact hd2 k (List.mem_cons_of_mem _ hk)

/-- C3 (amended): every value of `get_cf_scores` lies in [0, 1.3]: the
similarity-derived normalized score lies in [0, 1] and the popularity blend
adds at most 0.3 on top of it — so a value can exceed 1 (see the
counterexample) but never 1.3, and never drops below 0. -/
theorem c3_cf_scores_bounds (store : DataStore) (user_id : String) :
    ∀ p ∈ getCfScores store user_id, 0 ≤ p.2 ∧ p.2 ≤ 13/10 := by
  intro p hp
  simp only [getCfScores] at hp
  split at hp
  · have h := cfSimilarityScores_bounds store user_id p hp
    exact ⟨h.1, le_trans h.2 (by norm_num)⟩
  · refine foldl_blend_bounds
      (fun q => if 0 < listMaxNat ((getPopularCandidates store 20).map Prod.snd) then
        ((q.2 : ℚ) / ((listMaxNat ((getPopularCandidates store 20).map Prod.snd) : ℕ) : ℚ))
          * (3/10)
      else 0)
      (getPopularCandidates store 20) ?_ (getPopularCandidates_keys_nodup store 20) _ ?_ ?_ p hp
    · intro q hq
      split_ifs with hmax
      · constructor
        · positivity
        · have hle : (q.2 : ℚ) ≤
              ((listMaxNat ((getPopularCandidates store 20).map Prod.snd) : ℕ) : ℚ) := by
            exact_mod_cast mem_le_listMaxNat _ _ (List.mem_map_of_mem Prod.snd hq)
          have hmaxq : (0 : ℚ) <
              ((listMaxNat ((getPopularCandidates store 20).map Prod.snd) : ℕ) : ℚ) := by
            exact_mod_cast hmax
          calc ((q.2 : ℚ) / _) * (3/10) ≤ 1 * (3/10) := by
                refine mul_le_mul_of_nonneg_right ?_ (by norm_num)
                rw [div_le_one hmaxq]
                exact hle
            _ = 3/10 := one_mul _
      · norm_num
    · intro q hq
      have h := cfSimilarityScores_bounds store user_id q hq
      exact ⟨h.1, le_trans h.2 (by norm_num)⟩
    · intro k hk
      unfold dictGetD
      cases hg : dictGet (cfSimilarityScores store user_id) k with
      | none => simp
      | some v =>
        have h := cfSimilarityScores_bounds store user_id (k, v) (dictGet_mem _ _ _ hg)
        simpa using h

theorem cfBlendStore_shown : getShownCandidates cfBlendStore "u1" = [] := by
  simp [getShownCandidates, cfBlendStore, List.filter]

theorem cfBlendStore_feedback :
    cfBlendStore.feedback =
      [{ id := "f1", user_id := "u2", candidate_id := "c1", action := "started" }] := rfl

theorem cfBlendStore_similar : findSimilarUsers cfBlendStore "u1" 10 = [("u2", 1)] := by
  norm_num [findSimilarUsers, getUser, cfBlendStore, List.find?, List.filterMap,
    List.dedup_cons_of_not_mem, List.dedup_nil, List.mergeSort_singleton]
  rw [if_neg (show ¬ ("u2" : String) = "u1" by decide)]
  simp [List.mergeSort_singleton]

theorem cfBlendStore_engaged :
    getCandidatesEngagedBySimilarUsers cfBlendStore "u1" 50 = [("c1", 1)] := by
  norm_num [getCandidatesEngagedBySimilarUsers, cfBlendStore_similar, cfBlendStore_shown,
    cfBlendStore_feedback, POSITIVE_ACTIONS, List.filter, dictSet, dictGetD, dictGet,
    List.mergeSort_singleton]

theorem cfBlendStore_popular : getPopularCandidates cfBlendStore 20 = [("c1", 1)] := by
  norm_num [getPopularCandidates, cfBlendStore_feedback, POSITIVE_ACTIONS, dictSet,
    dictGetD, dictGet, List.mergeSort_singleton]

theorem cfBlendStore_eval : getCfScores cfBlendStore "u1" = [("c1", 13/10)] := by
  have hcf1 : cfSimilarityScores cfBlendStore "u1" = [("c1", 1)] := by
    norm_num [cfSimilarityScores, cfBlendStore_engaged, listMaxQ, dictSet]
  norm_num [getCfScores, hcf1, cfBlendStore_popular, listMaxNat, dictSet, dictGetD,
    dictGet]

/-- C3 counterexample: with a similar user (Jaccard 1) whose "started"
feedback makes candidate c1 both the top CF candidate (normalized score 1)
and the most popular one (popularity bonus 0.3), the blended value is 1.3 —
outside [0, 1]. -/
theorem c3_counterexample :
    (1 : ℚ) < (dictGet (getCfScores cfBlendStore "u1") "c1").getD 0 := by
  rw [cfBlendStore_eval]
  norm_num [dictGet]

/-- Witness for C3 (amended): the blended value 1.3 of the concrete store
satisfies the [0, 1.3] bounds. -/
theorem c3_witness : (0 : ℚ) ≤ 13/10 ∧ (13/10 : ℚ) ≤ 13/10 := by
  refine c3_cf_scores_bounds cfBlendStore "u1" ("c1", 13/10) ?_
  rw [cfBlendStore_eval]
  simp

/-! ## Ranking claims -/

theorem diversityWalk_length (l : List ScoredCandidate) (seen : List String) :
    (diversityWalk l seen).length = l.length := by
  induction l generalizing seen with
  | nil => rfl
  | cons x xs ih => simp [diversityWalk, ih]

theorem diversityWalk_getElem (l : List ScoredCandidate) (seen : List String)
    (i : ℕ) (h : i < l.length) :
    (diversityWalk l seen)[i]? =
      some (if (l.get ⟨i, h⟩).candidate.category ∈
              seen ++ (l.take i).map (fun sc => sc.candidate.category) then
              { l.get ⟨i, h⟩ with score := (l.get ⟨i, h⟩).score * (8/10) }
            else l.get ⟨i, h⟩) := by
  induction l generalizing seen i with
  | nil => simp at h
  | cons x xs ih =>
    cases i with
    | zero => simp [diversityWalk]
    | succ n =>
      have hn : n < xs.length := Nat.lt_of_succ_lt_succ h
      have hstep : (diversityWalk (x :: xs) seen)[n + 1]? =
          (diversityWalk xs (x.candidate.category :: seen))[n]? := by
        simp [diversityWalk]
      rw [hstep, ih (x.candidate.category :: seen) n hn]
      congr 1
      have hget : (x :: xs).get ⟨n + 1, h⟩ = xs.get ⟨n, hn⟩ := rfl
      rw [hget]
      apply if_congr ?_ rfl rfl
      simp only [List.take_succ_cons, List.map_cons, List.mem_append, List.mem_cons]
      tauto

/-- C6 (confirmed): in the diversity pass, the walk multiplies the score of
exactly those candidates whose category occurs earlier in the (sorted)
input list by 0.8 and leaves first occurrences untouched; no candidate is
removed (the output is a permutation of the penalized list) and the final
output is re-sorted descending by post-penalty score. -/
theorem c6_diversity_pass (scored : List ScoredCandidate) :
    (applyDiversity scored).Perm (diversityWalk scored []) ∧
    (diversityWalk scored []).length = scored.length ∧
    (∀ i, ∀ h : i < scored.length,
      (diversityWalk scored [])[i]? =
        some (if (scored.get ⟨i, h⟩).candidate.category ∈
                (scored.take i).map (fun sc => sc.candidate.category) then
                { scored.get ⟨i, h⟩ with
                  score := (scored.get ⟨i, h⟩).score * (8/10) }
              else scored.get ⟨i, h⟩)) ∧
    (applyDiversity scored).Sorted (fun a b => b.score ≤ a.score) := by
  refine ⟨List.mergeSort_perm _ _, diversityWalk_length scored [], ?_, ?_⟩
  · intro i h
    simpa using diversityWalk_getElem scored [] i h
  · unfold applyDiversity
    have htrans : ∀ a b c : ScoredCandidate,
        (fun a b : ScoredCandidate => decide (b.score ≤ a.score)) a b = true →
        (fun a b : ScoredCandidate => decide (b.score ≤ a.score)) b c = true →
        (fun a b : ScoredCandidate => decide (b.score ≤ a.score)) a c = true := by
      intro a b c hab hbc
      simp only [decide_eq_true_eq] at *
      exact le_trans hbc hab
    have htotal : ∀ a b : ScoredCandidate,
        ((fun a b : ScoredCandidate => decide (b.score ≤ a.score)) a b ||
          (fun a b : ScoredCandidate => decide (b.score ≤ a.score)) b a) = true := by
      intro a b
      simpa using le_total b.score a.score
    have hp := List.sorted_mergeSort htrans htotal (diversityWalk scored [])
    exact hp.imp (fun hab => of_decide_eq_true hab)

/-- Witness for C6: of two news-category items the second is penalized to
0.8 × its score, pointwise in the walk. -/
theorem c6_witness :
    (diversityWalk
      [{ candidate := { id := "a", category := "news", keywords := [] }, score := 1 },
       { candidate := { id := "b", category := "news", keywords := [] }, score := 1/2 }]
      [])[1]? =
      some { candidate := { id := "b", category := "news", keywords := [] },
             score := (1/2 : ℚ) * (8/10) } := by
  have h := (c6_diversity_pass
    [{ candidate := { id := "a", category := "news", keywords := [] }, score := 1 },
     { candidate := { id := "b", category := "news", keywords := [] }, score := 1/2 }]).2.2.1
    1 (by decide)
  simpa using h

/-- C4 counterexample: a candidate with engagement_score −10 and no other
applicable component scores min(−10/5, 1) × 0.10 = −0.2 < 0 — the final
`min(total, 1.0)` caps only above, so the engagement component CAN drive
the score below 0. -/
theorem c4_counterexample :
    (computeScore { t := 0, hour := 12 }
      { id := "c1", category := "news", keywords := [], engagement_score := -10 }
      { id := "u1" } [] none []).1 < 0 := by
  norm_num [computeScore, Candidate.matchesInterests, min_def]

/-- C4 (amended): the ranking score is capped above at 1.0; it is
non-negative provided the candidate's engagement score is non-negative (the
CF values and any supplied receptivity being non-negative, as the pipeline
produces them), but a negative engagement_score can drive the total below
0. -/
theorem c4_score_bounds (now : Clock) (candidate : Candidate) (user : User)
    (activities : List UserActivity) (context : Option UserContext)
    (cf_scores : List (String × ℚ)) :
    (computeScore now candidate user activities context cf_scores).1 ≤ 1 ∧
    ((0 ≤ candidate.engagement_score ∧ (∀ p ∈ cf_scores, 0 ≤ p.2) ∧
      (∀ ctx ∈ context, 0 ≤ ctx.receptivity_score)) →
      0 ≤ (computeScore now candidate user activities context cf_scores).1) := by
  constructor
  · simp only [computeScore]
    exact min_le_right _ _
  · rintro ⟨heng, hcf, hctx⟩
    simp only [computeScore]
    refine le_min ?_ zero_le_one
    rw [div_one]
    apply List.sum_nonneg
    intro x hx
    simp only [List.mem_append] at hx
    rcases hx with ((((hx | hx) | hx) | hx) | hx) | hx
    · split at hx
      · rw [List.mem_singleton] at hx
        subst hx
        refine mul_nonneg (le_min (by positivity) zero_le_one) (by norm_num)
      · simp at hx
    · split at hx
      · rw [List.mem_singleton] at hx
        subst hx
        refine mul_nonneg (le_min (by positivity) zero_le_one) (by norm_num)
      · simp at hx
    · split at hx
      · rw [List.mem_singleton] at hx
        subst hx
        cases hg : dictGet cf_scores candidate.id with
        | none => norm_num
        | some v =>
          have hv : 0 ≤ v := hcf (candidate.id, v) (dictGet_mem cf_scores candidate.id v hg)
          simp only [Option.getD_some]
          exact mul_nonneg hv (by norm_num)
      · simp at hx
    · rw [List.mem_singleton] at hx
      subst hx
      have h5 : (0 : ℚ) ≤ candidate.engagement_score / 5 := by positivity
      exact mul_nonneg (le_min h5 zero_le_one) (by norm_num)
    · split at hx
      · rw [List.mem_singleton] at hx
        subst hx
        exact mul_nonneg (le_max_left 0 _) (by norm_num)
      · simp at hx
    · cases context with
      | none => simp at hx
      | some ctx =>
        simp only [List.mem_singleton] at hx
        subst hx
        exact mul_nonneg (hctx ctx (by simp)) (by norm_num)

/-- Witness for C4: a candidate with engagement score 0 and no other
applicable component gets a score in [0, 1]. -/
theorem c4_witness :
    (computeScore { t := 0, hour := 12 }
      { id := "c1", category := "news", keywords := [] }
      { id := "u1" } [] none []).1 ≤ 1 ∧
    0 ≤ (computeScore { t := 0, hour := 12 }
      { id := "c1", category := "news", keywords := [] }
      { id := "u1" } [] none []).1 := by
  have h := c4_score_bounds { t := 0, hour := 12 }
    { id := "c1", category := "news", keywords := [] } { id := "u1" } [] none []
  exact ⟨h.1, h.2 ⟨by simp, by simp, by simp⟩⟩

/-! ## Engine claims (quality floor) -/

/-- C5 (amended): `get_proactive_suggestion` returns a suggestion iff a top
recommendation exists and its score is at least 0.5 — the code's comparison
is `top.score < 0.5`, so a top score of exactly 0.5 IS returned; the floor
is `score ≥ 0.5`, not `score > 0.5`. -/
theorem c5_quality_floor (now : Clock) (store : DataStore) (user_id : String)
    (context : Option UserContext) (sc : ScoredCandidate) :
    getProactiveSuggestion now store user_id context = some sc ↔
      ((getRecommendations now store user_id 1 context).head? = some sc ∧
        1/2 ≤ sc.score) := by
  unfold getProactiveSuggestion
  cases hr : getRecommendations now store user_id 1 context with
  | nil => simp
  | cons top rest =>
    simp only [List.head?_cons]
    by_cases hs : top.score < 1/2
    · rw [if_pos hs]
      constructor
      · intro h
        exact absurd h (by simp)
      · rintro ⟨hsc, hge⟩
        rw [Option.some.injEq] at hsc
        subst hsc
        exact absurd hge (not_le.mpr hs)
    · rw [if_neg hs]
      constructor
      · intro h
        rw [Option.some.injEq] at h
        subst h
        exact ⟨rfl, not_lt.mp hs⟩
      · rintro ⟨hsc, _⟩
        rw [Option.some.injEq] at hsc
        rw [hsc]

theorem halfScoreStore_user :
    getUser halfScoreStore "u1" = some { id := "u1", topics_of_interest := ["a", "b", "c"] } := by
  simp [getUser, halfScoreStore, List.find?]

theorem halfScoreStore_activity :
    getUserActivity halfScoreStore "u1" 20 =
      [{ user_id := "u1", activity_type := "search", keywords := ["d", "e", "f"] }] := by
  norm_num [getUserActivity, halfScoreStore, List.filter, List.mergeSort_singleton]

theorem halfScoreStore_keywords :
    getUserKeywords halfScoreStore "u1" = ["d", "e", "f"] := by
  norm_num [getUserKeywords, halfScoreStore_activity, pySplitWhitespace]
  decide

theorem halfScoreStore_retrieve :
    retrieveCandidates halfScoreStore
      { id := "u1", topics_of_interest := ["a", "b", "c"] } 5 =
      [{ id := "c1", category := "learning",
         keywords := ["a", "b", "c", "d", "e", "f"] }] := by
  norm_num [retrieveCandidates, halfScoreStore_keywords, getCandidatesByKeywords,
    halfScoreStore, getShownCandidates, List.filter, List.mergeSort_singleton,
    List.dedup_cons_of_not_mem, List.dedup_nil, List.any]

theorem halfScoreStore_cf : getCfScores halfScoreStore "u1" = [] := by
  norm_num [getCfScores, cfSimilarityScores, getCandidatesEngagedBySimilarUsers,
    findSimilarUsers, getUser, halfScoreStore, List.find?, List.filterMap,
    getPopularCandidates, POSITIVE_ACTIONS, List.dedup_cons_of_not_mem,
    List.dedup_nil, List.mergeSort_nil, List.filter]

theorem halfScoreStore_score :
    computeScore { t := 0, hour := 12 }
      { id := "c1", category := "learning", keywords := ["a", "b", "c", "d", "e", "f"] }
      { id := "u1", topics_of_interest := ["a", "b", "c"] }
      [{ user_id := "u1", activity_type := "search", keywords := ["d", "e", "f"] }]
      none [] =
      (1/2,
       [{ type := "match", description := .matchesInterests 3, weight := 35/100 },
        { type := "search_history", description := .searchHistory, weight := 3/20 }]) := by
  have hd6 : (["a", "b", "c", "d", "e", "f"] : List String).dedup =
      ["a", "b", "c", "d", "e", "f"] := by decide
  have hf1 : (["a", "b", "c", "d", "e", "f"] : List String).filter
      (fun k => k ∈ (["a", "b", "c"] : List String)) = ["a", "b", "c"] := by decide
  have hf2 : (["a", "b", "c", "d", "e", "f"] : List String).filter
      (fun k => k ∈ (["d", "e", "f"] : List String)) = ["d", "e", "f"] := by decide
  simp [computeScore, Candidate.matchesInterests, hd6, hf1, hf2, pySplitWhitespace,
    dictGet]
  norm_num [min_def]

theorem halfScoreStore_recs :
    getRecommendations { t := 0, hour := 12 } halfScoreStore "u1" 1 none =
      [{ candidate := { id := "c1", category := "learning",
                        keywords := ["a", "b", "c", "d", "e", "f"] },
         score := 1/2,
         signals :=
           [{ type := "match", description := .matchesInterests 3, weight := 35/100 },
            { type := "search_history", description := .searchHistory, weight := 3/20 }] }] := by
  norm_num [getRecommendations, halfScoreStore_user, halfScoreStore_retrieve,
    rankCandidates, halfScoreStore_activity, halfScoreStore_cf, halfScoreStore_score,
    applyDiversity, diversityWalk, List.mergeSort_singleton]

/-- C5 counterexample: on a store whose top recommendation scores exactly
0.5, `get_proactive_suggestion` returns that candidate (score 0.5) — it
does not return nothing, refuting the "≤ 0.5 returns nothing" reading. -/
theorem c5_counterexample :
    (getProactiveSuggestion { t := 0, hour := 12 } halfScoreStore "u1" none).map
      (fun sc => sc.score) = some (1/2) := by
  unfold getProactiveSuggestion
  rw [halfScoreStore_recs]
  norm_num

end Proactive
